import Mathlib

/-!
Verification development for the `fast_dicom_reader` repository.

Shallow embedding of:
  - `src/dicom_utils.rs` : the typed tag decoder `extract_dicom_tags`
    (VR-dispatched `Value` construction) and the u16 pixel extractor
    `extract_dicom_pixel_data` (modelled here as `extract_dicom_pixel_data_v1`);
  - `src/src/dicom_utils.rs` : the all-strings tag decoder
    (`extract_dicom_tags_v2`) and the prioritized pixel extractor
    `extract_dicom_pixel_data` (u16, u8, i16, f32 candidate chain);
  - `src/src/main.rs` / `src/src/os_utils.rs` : the batch pipeline
    (`process_single_dicom`, `get_dicom_paths_from_folder`, `mainRead`).

External collaborators (the `dicom` crate's element accessors and pixel
decoder, the `chrono` parsers, the standard data dictionary, `walkdir`)
are modelled at their interface boundary: each fallible external call
becomes an `Option`/`Except` valued field of the input object, and the
chrono format parsers are modelled from the spec's description of the
fixed formats (see the doc comments on the individual parse functions).
-/

/-- A DICOM tag: a (group, element) pair, as in `dicom::core::Tag`. -/
structure Tag where
  group : Nat
  elem : Nat
deriving DecidableEq, Repr

/-- The DICOM value representations relevant to the decoder dispatch in
`src/dicom_utils.rs` (a subset of `dicom::core::VR`; the constructors not
named in the dispatch arms land in the fallback `_` arm, exactly as in
the source). -/
inductive VR where
  | AE | AS | AT | CS | DA | DS | DT | FL | FD | IS | LO | LT
  | OB | OW | PN | SH | SL | SQ | SS | ST | TM | UI | UL | UN | US | UT
deriving DecidableEq, Repr

/-- A 64-bit IEEE float, modelled by its bit pattern.  The program never
computes with the float it obtains from `to_float64()`; it only stores it,
so the bit pattern is a faithful observation model. -/
structure F64 where
  bits : Nat
deriving DecidableEq, Repr

/-- A 32-bit IEEE float as it is observed by `src/src/dicom_utils.rs`:
the only operation the program applies to an `f32` sample is the Rust
cast `as i32`, so the model carries exactly that observation. -/
structure F32 where
  toI32 : Int
deriving DecidableEq, Repr

/-- `chrono::NaiveDate` restricted to what the program constructs:
a (year, month, day) triple. -/
structure NaiveDate where
  year : Nat
  month : Nat
  day : Nat
deriving DecidableEq, Repr

/-- `chrono::NaiveTime`: hour, minute, second and nanosecond fields. -/
structure NaiveTime where
  hour : Nat
  minute : Nat
  second : Nat
  nano : Nat
deriving DecidableEq, Repr

/-- `chrono::NaiveDateTime`: a date with a time of day. -/
structure NaiveDateTime where
  date : NaiveDate
  time : NaiveTime
deriving DecidableEq, Repr

/-- The `Value` enum of `src/dicom_utils.rs` (lines 18-32): the closed
tagged union of decoded attribute values. -/
inductive Value where
  | String (s : String)
  | Integer (i : Int)
  | Float (f : F64)
  | UnsignedInteger (u : Nat)
  | Date (d : NaiveDateTime)
  | Time (t : NaiveTime)
deriving DecidableEq, Repr

/-- The variant tag of a `Value`, used to state variant-level properties. -/
inductive VTag where
  | vstr | vint | vfloat | vuint | vdate | vtime
deriving DecidableEq, Repr

/-- Which variant a `Value` populates. -/
def variantOf : Value → VTag
  | .String _ => .vstr
  | .Integer _ => .vint
  | .Float _ => .vfloat
  | .UnsignedInteger _ => .vuint
  | .Date _ => .vdate
  | .Time _ => .vtime

/-- A raw attribute element as observed through the `dicom` crate's
accessors.  Each field records the outcome of the corresponding external
call on this element: `to_str` models `elem.to_str()` (`none` = `Err`),
`to_int_u16` models `elem.to_int::<u16>()` (values are in `0..2^16`),
`to_int_u32` models `elem.to_int::<u32>()`, `to_int_i32` models
`elem.to_int::<i32>()`, and `to_float64` models `elem.to_float64()`. -/
structure Elem where
  vr : VR
  to_str : Option String
  to_int_u16 : Option Nat
  to_int_u32 : Option Nat
  to_int_i32 : Option Int
  to_float64 : Option F64
deriving DecidableEq, Repr

/-- Digit character to its numeric value. -/
def digitVal (c : Char) : Nat := c.toNat - 48

/-- Value of a digit string read in base 10. -/
def natOfDigits (cs : List Char) : Nat :=
  cs.foldl (fun a c => 10 * a + digitVal c) 0

/-- Gregorian leap-year rule. -/
def isLeapYear (y : Nat) : Bool :=
  (y % 4 == 0 && y % 100 != 0) || y % 400 == 0

/-- Days in a given month of a given year. -/
def daysInMonth (y m : Nat) : Nat :=
  if m = 2 then (if isLeapYear y then 29 else 28)
  else if m = 4 ∨ m = 6 ∨ m = 9 ∨ m = 11 then 30
  else 31

/-- A calendar-valid (year, month, day) triple, or `none`. -/
def mkValidDate (y m d : Nat) : Option NaiveDate :=
  if 1 ≤ m ∧ m ≤ 12 ∧ 1 ≤ d ∧ d ≤ daysInMonth y m then some ⟨y, m, d⟩ else none

/-- A clock-valid time of day, or `none`. -/
def mkValidTime (h mi s nano : Nat) : Option NaiveTime :=
  if h ≤ 23 ∧ mi ≤ 59 ∧ s ≤ 59 then some ⟨h, mi, s, nano⟩ else none

/-- Modelled from the spec: chrono's
`NaiveDate::parse_from_str(s, "%Y%m%d")` as used for the DA branch
(`src/dicom_utils.rs` line 115); the chrono crate is an external
collaborator not in `src/`, and the spec describes this call as a
"fixed-width date parse (YYYYMMDD)": exactly eight digits that denote a
calendar-valid date. -/
def parse_ymd (s : String) : Option NaiveDate :=
  let cs := s.toList
  if cs.length = 8 ∧ cs.all Char.isDigit then
    mkValidDate (natOfDigits (cs.take 4))
      (natOfDigits ((cs.drop 4).take 2))
      (natOfDigits (cs.drop 6))
  else none

/-- Modelled from the spec: chrono time parsing with format `"%H%M%S"`
(plain `HHMMSS`, six digits denoting a clock-valid time). -/
def parse_hms (s : String) : Option NaiveTime :=
  let cs := s.toList
  if cs.length = 6 ∧ cs.all Char.isDigit then
    mkValidTime (natOfDigits (cs.take 2))
      (natOfDigits ((cs.drop 2).take 2))
      (natOfDigits ((cs.drop 4).take 2)) 0
  else none

/-- Modelled from the spec: chrono time parsing with a fractional-second
format (`"%H%M%S.%f"` / `"%H%M%S.%3f"` / `"%H%M%S.%6f"`), described by the
spec as `HHMMSS` "with fractional seconds at 1/3/6-digit precision":
six digits, a dot, then exactly `w` fraction digits scaled to
nanoseconds. -/
def parse_hms_frac (w : Nat) (s : String) : Option NaiveTime :=
  let cs := s.toList
  if cs.length = 7 + w ∧ (cs.take 6).all Char.isDigit ∧ cs[6]? = some '.'
      ∧ (cs.drop 7).all Char.isDigit then
    mkValidTime (natOfDigits (cs.take 2))
      (natOfDigits ((cs.drop 2).take 2))
      (natOfDigits ((cs.drop 4).take 2))
      (natOfDigits (cs.drop 7) * 10 ^ (9 - w))
  else none

/-- Modelled from the spec: chrono datetime parsing with format
`"%Y%m%d%H%M%S"` (fourteen digits denoting a valid date and time). -/
def parse_ymdhms (s : String) : Option NaiveDateTime :=
  let cs := s.toList
  if cs.length = 14 ∧ cs.all Char.isDigit then
    match mkValidDate (natOfDigits (cs.take 4))
        (natOfDigits ((cs.drop 4).take 2))
        (natOfDigits ((cs.drop 6).take 2)) with
    | some d =>
      match mkValidTime (natOfDigits ((cs.drop 8).take 2))
          (natOfDigits ((cs.drop 10).take 2))
          (natOfDigits ((cs.drop 12).take 2)) 0 with
      | some t => some ⟨d, t⟩
      | none => none
    | none => none
  else none

/-- Modelled from the spec: chrono datetime parsing with format
`"%Y%m%d%H%M%S%.f"` (the spec: `YYYYMMDDHHMMSS` "then with fractional
seconds"): fourteen digits, a dot, then one to nine fraction digits. -/
def parse_ymdhms_frac (s : String) : Option NaiveDateTime :=
  let cs := s.toList
  let fracLen := cs.length - 15
  if 16 ≤ cs.length ∧ cs.length ≤ 24 ∧ (cs.take 14).all Char.isDigit
      ∧ cs[14]? = some '.' ∧ (cs.drop 15).all Char.isDigit then
    match parse_ymdhms (String.mk (cs.take 14)) with
    | some dt =>
      some ⟨dt.date, ⟨dt.time.hour, dt.time.minute, dt.time.second,
        natOfDigits (cs.drop 15) * 10 ^ (9 - fracLen)⟩⟩
    | none => none
  else none

/-- The ordered TM format list of `src/dicom_utils.rs` line 134:
`["%H%M%S", "%H%M%S.%f", "%H%M%S.%3f", "%H%M%S.%6f"]`. -/
def tmFormats : List (String → Option NaiveTime) :=
  [parse_hms, parse_hms_frac 1, parse_hms_frac 3, parse_hms_frac 6]

/-- The ordered DT format list of `src/dicom_utils.rs` line 158:
`["%Y%m%d%H%M%S", "%Y%m%d%H%M%S%.f"]`. -/
def dtFormats : List (String → Option NaiveDateTime) :=
  [parse_ymdhms, parse_ymdhms_frac]

/-- Translation of the format loop used in the TM branch (lines 134-147)
and the DT branch (lines 158-171) of `src/dicom_utils.rs`: `result` is
initialized to the raw string, each format is tried in order, and the
first success overwrites `result` and breaks out of the loop. -/
def parseLoop {α : Type} (mk : α → Value) (raw : String) :
    List (String → Option α) → Value
  | [] => .String raw
  | f :: rest =>
    match f raw with
    | some v => mk v
    | none => parseLoop mk raw rest

/-- The VR dispatch of `extract_dicom_tags` (`src/dicom_utils.rs` lines
102-207), decoding one present element into a `Value`.  The
`date.and_hms_opt(0, 0, 0).unwrap()` on line 117 always succeeds (0,0,0 is
a valid time), and is modelled by attaching midnight directly. -/
def decodeValue (e : Elem) : Value :=
  match e.vr with
  | .PN | .LO | .SH | .CS | .UI =>
    match e.to_str with
    | some s => .String s
    | none => .String "<parse error>"
  | .DA =>
    match e.to_str with
    | some s =>
      match parse_ymd s with
      | some date => .Date ⟨date, ⟨0, 0, 0, 0⟩⟩
      | none => .String s
    | none => .String "<parse error>"
  | .TM =>
    match e.to_str with
    | some s => parseLoop Value.Time s tmFormats
    | none => .String "<parse error>"
  | .DT =>
    match e.to_str with
    | some s => parseLoop Value.Date s dtFormats
    | none => .String "<parse error>"
  | .US =>
    match e.to_int_u16 with
    | some v => .UnsignedInteger v
    | none => .String "<parse error>"
  | .UL =>
    match e.to_int_u32 with
    | some v => .UnsignedInteger v
    | none => .String "<parse error>"
  | .IS =>
    match e.to_int_i32 with
    | some v => .Integer v
    | none => .String "<parse error>"
  | .DS | .FL | .FD =>
    match e.to_float64 with
    | some v => .Float v
    | none => .String "<parse error>"
  | _ =>
    match e.to_str with
    | some s => .String s
    | none => .String "<binary/unsupported>"

/-- The attribute dictionary collaborator (`StandardDataDictionary`):
a finite table from tags to alias names. -/
structure Dict where
  entries : List (Tag × String)

/-- Association-list lookup (by tag). -/
def lookupTag : List (Tag × String) → Tag → Option String
  | [], _ => none
  | (t0, s0) :: rest, t => if t0 = t then some s0 else lookupTag rest t

/-- `StandardDataDictionary.by_tag(*tag).map(|e| e.alias()).unwrap_or("Unknown Tag")`
(`src/dicom_utils.rs` lines 95-97). -/
def tagName (dict : Dict) (t : Tag) : String :=
  (lookupTag dict.entries t).getD "Unknown Tag"

/-- A shaped multi-dimensional array (the external ndarray collaborator):
a flat buffer plus a shape whose product equals the buffer length. -/
structure Arr (α : Type) where
  data : List α
  shape : List Nat
  hlen : data.length = shape.prod

/-- `ndarray::Array::from_vec(l).into_shape_with_order(shape)`: succeeds
exactly when the buffer length matches the shape product. -/
def intoShape {α : Type} (l : List α) (shape : List Nat) : Option (Arr α) :=
  if h : l.length = shape.prod then some ⟨l, shape, h⟩ else none

/-- Element-wise conversion of an array (shape preserved). -/
def arrMap {α β : Type} (f : α → β) (a : Arr α) : Arr β :=
  ⟨a.data.map f, a.shape, by rw [List.length_map, a.hlen]⟩

/-- The decoded pixel-data object returned by `decode_pixel_data()`.
Each field records the outcome of `pixel_data.to_ndarray::<T>()` for the
corresponding element type `T` (`none` = that interpretation fails). -/
structure PixelData where
  asU16 : Option (Arr Nat)
  asU8 : Option (Arr Nat)
  asI16 : Option (Arr Int)
  asF32 : Option (Arr F32)

/-- An opened in-memory DICOM object, observed through the external
`dicom` crate: its attribute elements (an association list queried by
`element(tag)`), and the outcome of `decode_pixel_data()`. -/
structure DicomObj where
  elems : List (Tag × Elem)
  pixelDecode : Except String PixelData

/-- Association-list lookup for elements. -/
def findElem : List (Tag × Elem) → Tag → Option Elem
  | [], _ => none
  | (t0, e0) :: rest, t => if t0 = t then some e0 else findElem rest t

/-- `dicom.element(*tag)`: `Ok` with the element when present, `Err`
(whose `Display` text the decoder stores) when absent. -/
def DicomObj.element (obj : DicomObj) (t : Tag) : Except String Elem :=
  match findElem obj.elems t with
  | some e => .ok e
  | none => .error "no such data element"

/-- The value inserted for one tag by `extract_dicom_tags`
(`src/dicom_utils.rs` lines 99-214): the decoded value when the element
is present, the error's display text as a `String` value when absent. -/
def decodeTagValue (obj : DicomObj) (t : Tag) : Value :=
  match obj.element t with
  | .ok e => decodeValue e
  | .error msg => .String msg

/-- `HashMap::insert`: replaces the value when the key is present,
appends a fresh binding otherwise. -/
def mapInsert {β : Type} : List (String × β) → String → β → List (String × β)
  | [], k, v => [(k, v)]
  | (k0, v0) :: rest, k, v =>
    if k0 = k then (k0, v) :: rest else (k0, v0) :: mapInsert rest k v

/-- `HashMap::get`: lookup by key. -/
def mapLookup {β : Type} : List (String × β) → String → Option β
  | [], _ => none
  | (k0, v0) :: rest, k => if k0 = k then some v0 else mapLookup rest k

/-- `extract_dicom_tags` of `src/dicom_utils.rs` (lines 89-218): for each
tag in the list, resolve its dictionary name and insert the decoded value
(or the access-error text) into the map under that name. -/
def extract_dicom_tags (dict : Dict) (obj : DicomObj) (tags : List Tag) :
    List (String × Value) :=
  tags.foldl (fun m t => mapInsert m (tagName dict t) (decodeTagValue obj t)) []

/-- The last tag of the list whose dictionary name is `k` (the tag whose
insertion into the map happens last for that key). -/
def lastMatchingTag (dict : Dict) : List Tag → String → Option Tag
  | [], _ => none
  | t :: rest, k =>
    match lastMatchingTag dict rest k with
    | some t2 => some t2
    | none => if tagName dict t = k then some t else none

/-- The pixel-data tag (7FE0,0010) (`dicom::dictionary_std::tags::PIXEL_DATA`). -/
def pixelDataTag : Tag := ⟨0x7FE0, 0x0010⟩

/-- One candidate conversion step of `src/src/dicom_utils.rs` (e.g. lines
101-108): map the decoded samples element-wise to `i32` and reshape;
`Err` on reshape yields `None`. -/
def tryConvert {α : Type} (cast : α → Int) (a : Arr α) : Option (Arr Int) :=
  match intoShape (a.data.map cast) a.shape with
  | some arr => some arr
  | none => none

/-- `extract_dicom_pixel_data` of `src/src/dicom_utils.rs` (lines
87-156): return `None` when the pixel-data element is absent; decode the
pixel data (`None` on failure); then try `u16`, `u8`, `i16`, `f32` in
order, converting the first interpretation that succeeds element-wise to
`i32` (`u16`/`u8` widen, `i16` widens, `f32` truncates via `as i32`). -/
def extract_dicom_pixel_data (obj : DicomObj) : Option (Arr Int) :=
  match obj.element pixelDataTag with
  | .error _ => none
  | .ok _ =>
    match obj.pixelDecode with
    | .error _ => none
    | .ok pd =>
      match pd.asU16 with
      | some a => tryConvert (fun x => Int.ofNat x) a
      | none =>
        match pd.asU8 with
        | some a => tryConvert (fun x => Int.ofNat x) a
        | none =>
          match pd.asI16 with
          | some a => tryConvert (fun x => x) a
          | none =>
            match pd.asF32 with
            | some a => tryConvert F32.toI32 a
            | none => none

/-- `extract_dicom_pixel_data` of `src/dicom_utils.rs` (lines 232-254):
the u16-only variant.  Its `into_shape_with_order(shape).unwrap()` on
line 243 is modelled by an `Except` whose `error` case is the panic; the
theorems show this case is unreachable. -/
def extract_dicom_pixel_data_v1 (obj : DicomObj) :
    Except String (Option (Arr Nat)) :=
  match obj.pixelDecode with
  | .error _ => .ok none
  | .ok pd =>
    match pd.asU16 with
    | none => .ok none
    | some array =>
      match intoShape array.data array.shape with
      | some arr => .ok (some arr)
      | none => .error "panicked at unwrap of into_shape_with_order"

/-- `extract_dicom_tags` of `src/src/dicom_utils.rs` (lines 50-74): every
value is converted to a string (`to_str`, `"<parse error>"` on failure,
the access-error text when absent). -/
def extract_dicom_tags_v2 (dict : Dict) (obj : DicomObj) (tags : List Tag) :
    List (String × String) :=
  tags.foldl (fun m t =>
    mapInsert m (tagName dict t)
      (match obj.element t with
       | .ok e =>
         match e.to_str with
         | some s => s
         | none => "<parse error>"
       | .error msg => msg)) []

/-- Modelled from the spec: the statically configured extraction list
`DICOM_TAGS` lives in `consts.rs`, which is not under `src/`; the spec
describes it as "a finite, statically configured list of attribute
identifiers to extract per file".  A representative list of standard
tags is used. -/
def DICOM_TAGS : List Tag :=
  [⟨0x0008, 0x0020⟩, ⟨0x0008, 0x0060⟩, ⟨0x0010, 0x0010⟩,
   ⟨0x0028, 0x0010⟩, ⟨0x0028, 0x0011⟩]

/-- Modelled from the spec: the standard attribute dictionary is external
data ("maps an attribute identifier to a human-readable name"); a
representative table covering `DICOM_TAGS`. -/
def STANDARD_DICT : Dict :=
  ⟨[(⟨0x0008, 0x0020⟩, "StudyDate"), (⟨0x0008, 0x0060⟩, "Modality"),
    (⟨0x0010, 0x0010⟩, "PatientName"), (⟨0x0028, 0x0010⟩, "Rows"),
    (⟨0x0028, 0x0011⟩, "Columns")]⟩

/-- The per-file record of `src/src/dicom_utils.rs` (`DicomData`,
lines 38-42): path, string tag map, optional i32 pixel array. -/
structure DicomData where
  path : String
  tags : List (String × String)
  pixel_data : Option (Arr Int)

/-- `extract_dicom_data` of `src/src/dicom_utils.rs` (lines 158-166). -/
def extract_dicom_data (obj : DicomObj) (path : String) : DicomData :=
  ⟨path, extract_dicom_tags_v2 STANDARD_DICT obj DICOM_TAGS,
   extract_dicom_pixel_data obj⟩

/-- `read_dicom_file` (`src/src/dicom_utils.rs` lines 12-28): forwards
the outcome of the external `open_file` (the `eprintln` is I/O only).
`openf` models the external `open_file` collaborator. -/
def read_dicom_file (openf : String → Except String DicomObj)
    (filepath : String) : Except String DicomObj :=
  match openf filepath with
  | .ok obj => .ok obj
  | .error e => .error e

/-- `process_single_dicom` of `src/src/main.rs` (lines 13-29): open the
file; on failure return the wrapped error, otherwise assemble the record. -/
def process_single_dicom (openf : String → Except String DicomObj)
    (path : String) : Except String DicomData :=
  match read_dicom_file openf path with
  | .ok obj => .ok (extract_dicom_data obj path)
  | .error e => .error ("Failed to read DICOM file: " ++ e)

/-- `Result::ok` as used when splitting the aggregate results. -/
def exceptOk {ε α : Type} : Except ε α → Option α
  | .ok a => some a
  | .error _ => none

/-- `Result::err` as used by `results.into_iter().filter_map(|r| r.err())`. -/
def exceptErr {ε α : Type} : Except ε α → Option ε
  | .ok _ => none
  | .error e => some e

/-- Whether an external open fails. -/
def isErrB {ε α : Type} : Except ε α → Bool
  | .ok _ => false
  | .error _ => true

/-- One entry produced by the external `walkdir` iterator: a path and
whether the entry is a regular file.  Traversal failures (including a
nonexistent root) appear as `Except.error` items in the iterator's
output, exactly as `WalkDir`'s iterator yields `Err` entries. -/
structure WalkEntry where
  path : String
  isFile : Bool

/-- The final path component (`Path::file_name`): `none` for an empty
last component. -/
def fileNameOpt (p : String) : Option String :=
  match (p.splitOn "/").getLast? with
  | some s => if s = "" then none else some s
  | none => none

/-- `get_dicom_paths_from_folder` of `src/src/os_utils.rs` (lines 4-19):
drop erroneous walk entries (`filter_map(|entry| entry.ok())`), keep
regular files, take their paths, and drop `.DS_Store`.  Note the
function returns `Ok` unconditionally: walk errors are filtered out, not
propagated. -/
def get_dicom_paths_from_folder (walk : List (Except String WalkEntry)) :
    Except String (List String) :=
  .ok (((((walk.filterMap exceptOk).filter (fun e => e.isFile)).map
    (fun e => e.path)).filter
      (fun p => match fileNameOpt p with
                | some s => s ≠ ".DS_Store"
                | none => false)))

/-- The `Read` subcommand body of `src/src/main.rs` `main` (lines
52-121), modelled at the batch level: discovery via
`get_dicom_paths_from_folder` (the `?` operator propagates a discovery
error into a non-zero exit, modelled as exit code 1), then one
`process_single_dicom` outcome per discovered path, then `main` returns
`Ok(())` — exit code 0 — regardless of how many outcomes are errors.
Returns (exit code, number of successes, number of recorded failures).
The rayon fan-out is order-preserving collection (`collect` on a parallel
map), modelled sequentially. -/
def mainRead (walk : List (Except String WalkEntry))
    (openf : String → Except String DicomObj) : Nat × Nat × Nat :=
  match get_dicom_paths_from_folder walk with
  | .error _ => (1, 0, 0)
  | .ok paths =>
    let results := paths.map (process_single_dicom openf)
    ((0 : Nat), (results.filterMap exceptOk).length,
      (results.filterMap exceptErr).length)

/-- The §4.1 VR-to-variant mapping as stated by the spec, at the level of
claim C1: which `Value` the decoder must return for each VR class of a
present element, including the sentinel strings required on internal
parse failures. -/
def C1Mapping (e : Elem) (v : Value) : Prop :=
  match e.vr with
  | .PN | .LO | .SH | .CS | .UI =>
    (∀ s, e.to_str = some s → v = .String s)
      ∧ (e.to_str = none → v = .String "<parse error>")
  | .DA =>
    (∀ s, e.to_str = some s → ((∃ d, v = .Date d) ∨ v = .String s))
      ∧ (e.to_str = none → v = .String "<parse error>")
  | .TM =>
    (∀ s, e.to_str = some s → ((∃ t, v = .Time t) ∨ v = .String s))
      ∧ (e.to_str = none → v = .String "<parse error>")
  | .DT =>
    (∀ s, e.to_str = some s → ((∃ d, v = .Date d) ∨ v = .String s))
      ∧ (e.to_str = none → v = .String "<parse error>")
  | .US =>
    (∀ n, e.to_int_u16 = some n → v = .UnsignedInteger n)
      ∧ (e.to_int_u16 = none → v = .String "<parse error>")
  | .UL =>
    (∀ n, e.to_int_u32 = some n → v = .UnsignedInteger n)
      ∧ (e.to_int_u32 = none → v = .String "<parse error>")
  | .IS =>
    (∀ i, e.to_int_i32 = some i → v = .Integer i)
      ∧ (e.to_int_i32 = none → v = .String "<parse error>")
  | .DS | .FL | .FD =>
    (∀ x, e.to_float64 = some x → v = .Float x)
      ∧ (e.to_float64 = none → v = .String "<parse error>")
  | _ =>
    (∀ s, e.to_str = some s → v = .String s)
      ∧ (e.to_str = none → v = .String "<binary/unsupported>")

/-- The variant of §4.1 that each VR maps to on a successful parse. -/
def mappedVTag : VR → VTag
  | .DA | .DT => .vdate
  | .TM => .vtime
  | .US | .UL => .vuint
  | .IS => .vint
  | .DS | .FL | .FD => .vfloat
  | _ => .vstr

/-- A DA element whose text is a well-formed `YYYYMMDD` date. -/
def daElemOk : Elem := ⟨.DA, some "20230415", none, none, none, none⟩

/-- A DA element whose text uses the wrong (dashed) date format. -/
def daElemDash : Elem := ⟨.DA, some "2023-04-15", none, none, none, none⟩

/-- A TM element carrying the plain `HHMMSS` text `143000`. -/
def tmElem0 : Elem := ⟨.TM, some "143000", none, none, none, none⟩

/-- A TM element carrying unparseable time text. -/
def tmElemBad : Elem := ⟨.TM, some "abc", none, none, none, none⟩

/-- A DT element carrying the text `20230415143000`. -/
def dtElem0 : Elem := ⟨.DT, some "20230415143000", none, none, none, none⟩

/-- A CS element decoding to the text `CT`. -/
def csElem0 : Elem := ⟨.CS, some "CT", none, none, none, none⟩

/-- A binary (OB) element whose conversions all fail. -/
def obElem0 : Elem := ⟨.OB, none, none, none, none, none⟩

/-- A concrete u16 sample array (values 258 and 4095, shape [2]). -/
def arrU16a : Arr Nat := ⟨[258, 4095], [2], by decide⟩

/-- A concrete u8 sample array (shape [4]): the same raw buffer read as
bytes. -/
def arrU8a : Arr Nat := ⟨[1, 2, 15, 255], [4], by decide⟩

/-- A decoded pixel-data object interpretable both as u16 and as u8. -/
def pdBoth : PixelData := ⟨some arrU16a, some arrU8a, none, none⟩

/-- A decoded pixel-data object none of whose candidate types decode. -/
def pdNone : PixelData := ⟨none, none, none, none⟩

/-- An object with a pixel-data element decodable as both u16 and u8. -/
def objPixelBoth : DicomObj := ⟨[(pixelDataTag, obElem0)], .ok pdBoth⟩

/-- An object with no pixel-data element at all. -/
def objNoPixelElem : DicomObj := ⟨[], .ok pdBoth⟩

/-- An object whose pixel-data element exists but no candidate type
decodes. -/
def objPixelUndecodable : DicomObj := ⟨[(pixelDataTag, obElem0)], .ok pdNone⟩

/-- The empty dictionary: every tag resolves to "Unknown Tag". -/
def dict0 : Dict := ⟨[]⟩

/-- An object with no attribute elements (every lookup is an access
error) and failing pixel decode. -/
def obj0 : DicomObj := ⟨[], .error "no pixel data"⟩

/-- A private (unregistered) tag. -/
def tU1 : Tag := ⟨0x0009, 0x0001⟩

/-- A second, distinct private (unregistered) tag. -/
def tU2 : Tag := ⟨0x0009, 0x0002⟩

/-- An object where `tU2` is present (a CS element) and `tU1` absent. -/
def obj10 : DicomObj := ⟨[(tU2, csElem0)], .error "no pixel data"⟩

/-- A concrete external open function: path "a" opens, others fail. -/
def openf0 : String → Except String DicomObj :=
  fun p => if p = "a" then .ok obj0 else .error "open failed"

/-- Three concrete input paths, of which "b" and "c" fail to open. -/
def paths0 : List String := ["a", "b", "c"]

/-- A walkdir run over a nonexistent root: the iterator yields exactly
one `Err` entry. -/
def walkErr0 : List (Except String WalkEntry) :=
  [.error "IO error for operation on /no/such/dir: No such file or directory (os error 2)"]

/-- A walkdir run discovering two regular files. -/
def walkOk0 : List (Except String WalkEntry) :=
  [.ok ⟨"d/a", true⟩, .ok ⟨"d/b", true⟩]

theorem parseLoop_shape {α : Type} (mk : α → Value) (raw : String)
    (fmts : List (String → Option α)) :
    (∃ v, parseLoop mk raw fmts = mk v) ∨ parseLoop mk raw fmts = Value.String raw := by
  induction fmts with
  | nil => exact Or.inr rfl
  | cons f rest ih =>
    cases h : f raw with
    | some v => exact Or.inl ⟨v, by simp [parseLoop, h]⟩
    | none => simpa [parseLoop, h] using ih

theorem parseLoop_eq_findSome {α : Type} (mk : α → Value) (raw : String)
    (fmts : List (String → Option α)) :
    parseLoop mk raw fmts
      = (fmts.findSome? (fun f => f raw)).elim (Value.String raw) mk := by
  induction fmts with
  | nil => rfl
  | cons f rest ih =>
    cases h : f raw with
    | some v => simp [parseLoop, List.findSome?_cons, h]
    | none => simpa [parseLoop, List.findSome?_cons, h] using ih

/-- Claim C1: for every attribute element present in a file, the decoder
returns a `Value` whose variant follows the §4.1 VR-to-variant mapping
(PN/LO/SH/CS/UI text as `String`; DA a `Date` at midnight or the raw
`String`; TM a `Time` or the raw `String`; DT a `Date` or the raw
`String`; US/UL the widened `UnsignedInteger`; IS the widened `Integer`;
DS/FL/FD a `Float`; any other VR a `String`), and every internal parse
failure yields the sentinel `"<parse error>"` (or
`"<binary/unsupported>"` for the fallback class) instead of an error:
the function is total over `Elem`. -/
theorem c1_decoder_mapping (e : Elem) : C1Mapping e (decodeValue e) := by
  obtain ⟨vr, ts, u16, u32, i32v, f64v⟩ := e
  cases vr
  case PN => cases ts <;> simp [C1Mapping, decodeValue]
  case LO => cases ts <;> simp [C1Mapping, decodeValue]
  case SH => cases ts <;> simp [C1Mapping, decodeValue]
  case CS => cases ts <;> simp [C1Mapping, decodeValue]
  case UI => cases ts <;> simp [C1Mapping, decodeValue]
  case DA =>
    cases ts with
    | none => simp [C1Mapping, decodeValue]
    | some s =>
      refine ⟨?_, by simp⟩
      intro s2 hs2
      obtain rfl : s = s2 := by injection hs2
      cases hp : parse_ymd s with
      | some d => exact Or.inl ⟨⟨d, ⟨0, 0, 0, 0⟩⟩, by simp [decodeValue, hp]⟩
      | none => exact Or.inr (by simp [decodeValue, hp])
  case TM =>
    cases ts with
    | none => simp [C1Mapping, decodeValue]
    | some s =>
      refine ⟨?_, by simp⟩
      intro s2 hs2
      obtain rfl : s = s2 := by injection hs2
      rcases parseLoop_shape Value.Time s tmFormats with ⟨t, h⟩ | h
      · exact Or.inl ⟨t, by simpa [decodeValue] using h⟩
      · exact Or.inr (by simpa [decodeValue] using h)
  case DT =>
    cases ts with
    | none => simp [C1Mapping, decodeValue]
    | some s =>
      refine ⟨?_, by simp⟩
      intro s2 hs2
      obtain rfl : s = s2 := by injection hs2
      rcases parseLoop_shape Value.Date s dtFormats with ⟨d, h⟩ | h
      · exact Or.inl ⟨d, by simpa [decodeValue] using h⟩
      · exact Or.inr (by simpa [decodeValue] using h)
  case US => cases u16 <;> simp [C1Mapping, decodeValue]
  case UL => cases u32 <;> simp [C1Mapping, decodeValue]
  case IS => cases i32v <;> simp [C1Mapping, decodeValue]
  case DS => cases f64v <;> simp [C1Mapping, decodeValue]
  case FL => cases f64v <;> simp [C1Mapping, decodeValue]
  case FD => cases f64v <;> simp [C1Mapping, decodeValue]
  all_goals cases ts <;> simp [C1Mapping, decodeValue]

/-- Witness for C1 at a concrete CS element. -/
theorem c1_witness : C1Mapping csElem0 (decodeValue csElem0) :=
  c1_decoder_mapping csElem0

/-- Counterexample to claim C5 as stated: two elements with the same VR
(both DA) yield `Value`s of different variants — `daElemOk` (text
`"20230415"`) decodes to a `Date`, while `daElemDash` (text
`"2023-04-15"`) decodes to a `String`, because the DA branch falls back
to the raw string when the date parse fails.  The variant is therefore
not fully determined by the VR code alone. -/
theorem c5_counterexample :
    daElemOk.vr = daElemDash.vr
      ∧ variantOf (decodeValue daElemOk) ≠ variantOf (decodeValue daElemDash) := by
  decide

/-- Claim C5 (amended): every `Value` populates exactly one variant of
the closed union, and the variant is determined at construction by the
source VR together with the parse outcome: for each VR the variant is
either the one the §4.1 mapping assigns to that VR or the `String`
fallback; values are never mutated afterwards (the decoder is a pure
function of the element). -/
theorem c5_variant_range (e : Elem) :
    variantOf (decodeValue e) = mappedVTag e.vr
      ∨ variantOf (decodeValue e) = VTag.vstr := by
  obtain ⟨vr, ts, u16, u32, i32v, f64v⟩ := e
  cases vr
  case DA =>
    cases ts with
    | none => right; rfl
    | some s => cases hp : parse_ymd s <;> simp [decodeValue, mappedVTag, hp, variantOf]
  case DT =>
    cases ts with
    | none => right; rfl
    | some s =>
      rcases parseLoop_shape Value.Date s dtFormats with ⟨d, h⟩ | h <;>
        simp [decodeValue, mappedVTag, h, variantOf]
  case TM =>
    cases ts with
    | none => right; rfl
    | some s =>
      rcases parseLoop_shape Value.Time s tmFormats with ⟨t, h⟩ | h <;>
        simp [decodeValue, mappedVTag, h, variantOf]
  case US => cases u16 <;> simp [decodeValue, mappedVTag, variantOf]
  case UL => cases u32 <;> simp [decodeValue, mappedVTag, variantOf]
  case IS => cases i32v <;> simp [decodeValue, mappedVTag, variantOf]
  case DS => cases f64v <;> simp [decodeValue, mappedVTag, variantOf]
  case FL => cases f64v <;> simp [decodeValue, mappedVTag, variantOf]
  case FD => cases f64v <;> simp [decodeValue, mappedVTag, variantOf]
  all_goals cases ts <;> simp [decodeValue, mappedVTag, variantOf]

/-- Witness for the amended C5 at a concrete US element. -/
theorem c5_witness :
    variantOf (decodeValue ⟨.US, none, some 4095, none, none, none⟩)
        = mappedVTag (Elem.mk .US none (some 4095) none none none).vr
      ∨ variantOf (decodeValue ⟨.US, none, some 4095, none, none, none⟩) = VTag.vstr :=
  c5_variant_range ⟨.US, none, some 4095, none, none, none⟩

/-- Claim C7: for TM and DT elements whose text decodes, the decoder
tries the ordered format list of the source (TM: plain `HHMMSS` first,
then the fractional-second variants; DT: `YYYYMMDDHHMMSS` first, then
the fractional variant); the first format that parses wins
(`List.findSome?` is exactly first-success short-circuit iteration), and
when every format fails the result is the raw text as a `String`. -/
theorem c7_format_priority :
    (∀ (e : Elem) (s : String), e.vr = VR.TM → e.to_str = some s →
      decodeValue e = (tmFormats.findSome? (fun f => f s)).elim (Value.String s) Value.Time)
    ∧ (∀ (e : Elem) (s : String), e.vr = VR.DT → e.to_str = some s →
      decodeValue e = (dtFormats.findSome? (fun f => f s)).elim (Value.String s) Value.Date) := by
  constructor <;>
    (intro e s hvr hs
     obtain ⟨vr, ts, u16, u32, i32v, f64v⟩ := e
     simp only at hvr hs
     subst hvr
     subst hs
     simpa [decodeValue] using parseLoop_eq_findSome _ s _)

/-- Witness for C7: `"143000"` parses by the first TM format to
14:30:00; `"abc"` fails every format and stays the raw string. -/
theorem c7_witness :
    decodeValue tmElem0 = Value.Time ⟨14, 30, 0, 0⟩
      ∧ decodeValue tmElemBad = Value.String "abc" := by
  constructor
  · rw [c7_format_priority.1 tmElem0 "143000" rfl rfl]; decide
  · rw [c7_format_priority.1 tmElemBad "abc" rfl rfl]; decide

/-- Claim C8: for a DA element whose text matches the fixed-width
`YYYYMMDD` format (i.e. the modelled chrono parse succeeds), the decoder
returns a `Date` at midnight of that date; for every DA text the parse
rejects, it returns the raw text unchanged as a `String` — never an
error sentinel. -/
theorem c8_date_class :
    (∀ (e : Elem) (s : String) (d : NaiveDate), e.vr = VR.DA → e.to_str = some s →
      parse_ymd s = some d → decodeValue e = Value.Date ⟨d, ⟨0, 0, 0, 0⟩⟩)
    ∧ (∀ (e : Elem) (s : String), e.vr = VR.DA → e.to_str = some s →
      parse_ymd s = none → decodeValue e = Value.String s) := by
  constructor
  · intro e s d hvr hs hp
    obtain ⟨vr, ts, u16, u32, i32v, f64v⟩ := e
    simp only at hvr hs
    subst hvr; subst hs
    simp [decodeValue, hp]
  · intro e s hvr hs hp
    obtain ⟨vr, ts, u16, u32, i32v, f64v⟩ := e
    simp only at hvr hs
    subst hvr; subst hs
    simp [decodeValue, hp]

/-- Witness for C8: `"20230415"` becomes 2023-04-15T00:00:00, the dashed
text `"2023-04-15"` is preserved unchanged. -/
theorem c8_witness :
    decodeValue daElemOk = Value.Date ⟨⟨2023, 4, 15⟩, ⟨0, 0, 0, 0⟩⟩
      ∧ decodeValue daElemDash = Value.String "2023-04-15" :=
  ⟨c8_date_class.1 daElemOk "20230415" ⟨2023, 4, 15⟩ rfl rfl (by decide),
   c8_date_class.2 daElemDash "2023-04-15" rfl rfl (by decide)⟩

theorem batch_counts (openf : String → Except String DicomObj) (paths : List String) :
    ((paths.map (process_single_dicom openf)).filterMap exceptOk).length
        + ((paths.map (process_single_dicom openf)).filterMap exceptErr).length
      = paths.length
    ∧ ((paths.map (process_single_dicom openf)).filterMap exceptErr).length
      = paths.countP (fun p => isErrB (openf p)) := by
  induction paths with
  | nil => simp
  | cons p ps ih =>
    obtain ⟨ih1, ih2⟩ := ih
    simp only [List.filterMap_map] at ih1 ih2
    cases h : openf p with
    | ok obj =>
      have hb : isErrB (openf p) = false := by rw [h]; rfl
      simp [process_single_dicom, read_dicom_file, h, exceptOk, exceptErr,
        List.countP_cons, hb, ih2]
      exact ⟨by omega, rfl⟩
    | error e =>
      have hb : isErrB (openf p) = true := by rw [h]; rfl
      simp [process_single_dicom, read_dicom_file, h, exceptOk, exceptErr,
        List.countP_cons, hb, ih2]
      exact ⟨by omega, by rfl⟩

/-- Claim C2: over any list of discovered paths, with K the number of
paths whose open fails, the aggregate result vector splits into exactly
N − K successes and exactly K recorded failures, and every path yields
exactly one outcome (successes + failures = N); a failing file never
aborts the rest — each remaining path still contributes its outcome. -/
theorem c2_batch_partition (openf : String → Except String DicomObj)
    (paths : List String) :
    ((paths.map (process_single_dicom openf)).filterMap exceptOk).length
      = paths.length - paths.countP (fun p => isErrB (openf p))
    ∧ ((paths.map (process_single_dicom openf)).filterMap exceptErr).length
      = paths.countP (fun p => isErrB (openf p))
    ∧ ((paths.map (process_single_dicom openf)).filterMap exceptOk).length
        + ((paths.map (process_single_dicom openf)).filterMap exceptErr).length
      = paths.length := by
  obtain ⟨h1, h2⟩ := batch_counts openf paths
  refine ⟨by omega, h2, h1⟩

/-- Witness for C2 at three concrete paths of which two fail to open. -/
theorem c2_witness :
    ((paths0.map (process_single_dicom openf0)).filterMap exceptOk).length
      = paths0.length - paths0.countP (fun p => isErrB (openf0 p))
    ∧ ((paths0.map (process_single_dicom openf0)).filterMap exceptErr).length
      = paths0.countP (fun p => isErrB (openf0 p))
    ∧ ((paths0.map (process_single_dicom openf0)).filterMap exceptOk).length
        + ((paths0.map (process_single_dicom openf0)).filterMap exceptErr).length
      = paths0.length :=
  c2_batch_partition openf0 paths0

theorem intoShape_self {α : Type} (a : Arr α) : intoShape a.data a.shape = some a := by
  unfold intoShape
  rw [dif_pos a.hlen]

theorem intoShape_map {α β : Type} (f : α → β) (a : Arr α) :
    intoShape (a.data.map f) a.shape = some (arrMap f a) := by
  unfold intoShape
  rw [dif_pos (by rw [List.length_map, a.hlen])]
  rfl

theorem tryConvert_eq {α : Type} (cast : α → Int) (a : Arr α) :
    tryConvert cast a = some (arrMap cast a) := by
  simp [tryConvert, intoShape_map]

/-- Claim C3: the pixel extractor is total — it returns `none` (not an
error) when the pixel-data element is absent, when the external decode
fails, and when no candidate element type decodes; and the u16-only
variant of `src/dicom_utils.rs` never reaches its `unwrap` panic (the
reshape uses the source array's own shape, whose product equals the
buffer length). -/
theorem c3_pixel_total :
    (∀ (obj : DicomObj) (msg : String), obj.element pixelDataTag = .error msg →
      extract_dicom_pixel_data obj = none)
    ∧ (∀ (obj : DicomObj) (msg : String), obj.pixelDecode = .error msg →
      extract_dicom_pixel_data obj = none)
    ∧ (∀ (obj : DicomObj) (pd : PixelData), obj.pixelDecode = .ok pd →
      pd.asU16 = none → pd.asU8 = none → pd.asI16 = none → pd.asF32 = none →
      extract_dicom_pixel_data obj = none)
    ∧ (∀ obj : DicomObj, ∃ r, extract_dicom_pixel_data_v1 obj = .ok r) := by
  refine ⟨?_, ?_, ?_, ?_⟩
  · intro obj msg h
    simp [extract_dicom_pixel_data, h]
  · intro obj msg h
    cases he : obj.element pixelDataTag <;>
      simp [extract_dicom_pixel_data, he, h]
  · intro obj pd h h16 h8 hi hf
    cases he : obj.element pixelDataTag <;>
      simp [extract_dicom_pixel_data, he, h, h16, h8, hi, hf]
  · intro obj
    cases hd : obj.pixelDecode with
    | error e => exact ⟨none, by simp [extract_dicom_pixel_data_v1, hd]⟩
    | ok pd =>
      cases h16 : pd.asU16 with
      | none => exact ⟨none, by simp [extract_dicom_pixel_data_v1, hd, h16]⟩
      | some a =>
        exact ⟨some a, by simp [extract_dicom_pixel_data_v1, hd, h16, intoShape_self]⟩

/-- Witness for C3: an object with no pixel-data element yields `none`;
an object whose candidate interpretations all fail yields `none`; the
u16-only variant returns without panicking on the latter object. -/
theorem c3_witness :
    extract_dicom_pixel_data objNoPixelElem = none
    ∧ extract_dicom_pixel_data objPixelUndecodable = none
    ∧ (∃ r, extract_dicom_pixel_data_v1 objPixelUndecodable = .ok r) :=
  ⟨c3_pixel_total.1 objNoPixelElem "no such data element" rfl,
   c3_pixel_total.2.2.1 objPixelUndecodable pdNone rfl rfl rfl rfl rfl,
   c3_pixel_total.2.2.2 objPixelUndecodable⟩

/-- Claim C4: the pixel extractor tries the candidate element types in
the strict priority order u16, u8, i16, f32; the first type that decodes
is used — the remaining candidates are ignored — and its samples are
converted element-wise into the output `i32` type (u16/u8/i16 widen,
f32 truncates via the Rust `as i32` cast). -/
theorem c4_pixel_priority :
    (∀ (obj : DicomObj) (e : Elem) (pd : PixelData) (a : Arr Nat),
      obj.element pixelDataTag = .ok e → obj.pixelDecode = .ok pd →
      pd.asU16 = some a →
      extract_dicom_pixel_data obj = some (arrMap (fun x => Int.ofNat x) a))
    ∧ (∀ (obj : DicomObj) (e : Elem) (pd : PixelData) (a : Arr Nat),
      obj.element pixelDataTag = .ok e → obj.pixelDecode = .ok pd →
      pd.asU16 = none → pd.asU8 = some a →
      extract_dicom_pixel_data obj = some (arrMap (fun x => Int.ofNat x) a))
    ∧ (∀ (obj : DicomObj) (e : Elem) (pd : PixelData) (a : Arr Int),
      obj.element pixelDataTag = .ok e → obj.pixelDecode = .ok pd →
      pd.asU16 = none → pd.asU8 = none → pd.asI16 = some a →
      extract_dicom_pixel_data obj = some (arrMap (fun x => x) a))
    ∧ (∀ (obj : DicomObj) (e : Elem) (pd : PixelData) (a : Arr F32),
      obj.element pixelDataTag = .ok e → obj.pixelDecode = .ok pd →
      pd.asU16 = none → pd.asU8 = none → pd.asI16 = none → pd.asF32 = some a →
      extract_dicom_pixel_data obj = some (arrMap F32.toI32 a)) := by
  refine ⟨?_, ?_, ?_, ?_⟩
  · intro obj e pd a he hd h16
    simp [extract_dicom_pixel_data, he, hd, h16, tryConvert_eq]
  · intro obj e pd a he hd h16 h8
    simp [extract_dicom_pixel_data, he, hd, h16, h8, tryConvert_eq]
  · intro obj e pd a he hd h16 h8 hi
    simp [extract_dicom_pixel_data, he, hd, h16, h8, hi, tryConvert_eq]
  · intro obj e pd a he hd h16 h8 hi hf
    simp [extract_dicom_pixel_data, he, hd, h16, h8, hi, hf, tryConvert_eq]

/-- Witness for C4: a pixel buffer decodable both as u16 and as u8 is
taken in its u16 interpretation. -/
theorem c4_witness :
    pdBoth.asU16 = some arrU16a ∧ pdBoth.asU8 = some arrU8a
      ∧ extract_dicom_pixel_data objPixelBoth
          = some (arrMap (fun x => Int.ofNat x) arrU16a) :=
  ⟨rfl, rfl, c4_pixel_priority.1 objPixelBoth obElem0 pdBoth arrU16a rfl rfl rfl⟩

/-- Counterexample to claim C6 as stated: with a nonexistent root
directory — the walkdir iterator yields a single `Err` entry and nothing
else — the run does not abort and does not exit non-zero: discovery
filters the error away (`filter_map(|entry| entry.ok())`), yields an
empty path list, and the process completes with exit status 0 having
processed zero files. -/
theorem c6_counterexample :
    mainRead walkErr0 (fun _ => Except.error "unused") = (0, 0, 0) := rfl

/-- Claim C6 (amended): the process exits with status 0 on completion
regardless of how many individual files failed to open or decode;
moreover directory discovery never returns an error — an invalid or
nonexistent root path also completes with exit status 0 and an empty
batch, because `get_dicom_paths_from_folder` swallows traversal errors
(non-zero exit remains possible only through panics, e.g. thread-pool
construction, which are outside the error-return path). -/
theorem c6_exit_always_zero :
    (∀ (walk : List (Except String WalkEntry))
       (openf : String → Except String DicomObj),
      (mainRead walk openf).1 = 0)
    ∧ (∀ walk : List (Except String WalkEntry),
      ∃ ps, get_dicom_paths_from_folder walk = .ok ps) := by
  constructor
  · intro walk openf
    simp [mainRead, get_dicom_paths_from_folder]
  · intro walk
    exact ⟨_, rfl⟩

/-- Witness for the amended C6: a batch with two discovered files, both
failing to open, still exits 0. -/
theorem c6_witness : (mainRead walkOk0 openf0).1 = 0 :=
  c6_exit_always_zero.1 walkOk0 openf0

theorem mapLookup_insert {β : Type} (m : List (String × β)) (k k2 : String) (v : β) :
    mapLookup (mapInsert m k v) k2 = if k = k2 then some v else mapLookup m k2 := by
  induction m with
  | nil => simp [mapInsert, mapLookup]
  | cons kv rest ih =>
    obtain ⟨k0, v0⟩ := kv
    by_cases h0 : k0 = k
    · subst h0
      by_cases h2 : k0 = k2 <;> simp [mapInsert, mapLookup, h2]
    · by_cases h2 : k0 = k2
      · subst h2
        have hk : ¬ (k = k0) := fun h => h0 h.symm
        simp [mapInsert, mapLookup, h0, hk]
      · by_cases h3 : k = k2
        · subst h3
          simp [mapInsert, mapLookup, h0, h2, ih]
        · simp [mapInsert, mapLookup, h0, h2, h3, ih]

theorem mapInsert_length {β : Type} (m : List (String × β)) (k : String) (v : β) :
    (mapInsert m k v).length ≤ m.length + 1 := by
  induction m with
  | nil => simp [mapInsert]
  | cons kv rest ih =>
    obtain ⟨k0, v0⟩ := kv
    by_cases h : k0 = k <;> simp [mapInsert, h] <;> omega

theorem extract_tags_lookup (dict : Dict) (obj : DicomObj) :
    ∀ (tags : List Tag) (m : List (String × Value)) (k : String),
      mapLookup
        (tags.foldl
          (fun acc t => mapInsert acc (tagName dict t) (decodeTagValue obj t)) m) k
        = match lastMatchingTag dict tags k with
          | some t => some (decodeTagValue obj t)
          | none => mapLookup m k := by
  intro tags
  induction tags with
  | nil => intro m k; rfl
  | cons t rest ih =>
    intro m k
    simp only [List.foldl_cons]
    rw [ih]
    cases h : lastMatchingTag dict rest k with
    | some t2 => simp [lastMatchingTag, h]
    | none =>
      simp only [lastMatchingTag, h]
      rw [mapLookup_insert]
      by_cases hk : tagName dict t = k <;> simp [hk]

theorem extract_fold_length (dict : Dict) (obj : DicomObj) :
    ∀ (tags : List Tag) (m : List (String × Value)),
      (tags.foldl
        (fun acc t => mapInsert acc (tagName dict t) (decodeTagValue obj t)) m).length
        ≤ m.length + tags.length := by
  intro tags
  induction tags with
  | nil => intro m; simp
  | cons t rest ih =>
    intro m
    have h1 := ih (mapInsert m (tagName dict t) (decodeTagValue obj t))
    have h2 := mapInsert_length m (tagName dict t) (decodeTagValue obj t)
    simp only [List.foldl_cons, List.length_cons]
    omega

theorem lastMatchingTag_none (dict : Dict) (k : String) :
    ∀ tags : List Tag, (∀ t2 ∈ tags, tagName dict t2 ≠ k) →
      lastMatchingTag dict tags k = none := by
  intro tags
  induction tags with
  | nil => intro _; rfl
  | cons a rest ih =>
    intro h
    have hr := ih (fun t2 ht2 => h t2 (List.mem_cons_of_mem a ht2))
    have ha := h a (List.mem_cons_self a rest)
    simp [lastMatchingTag, hr, ha]

theorem lastMatchingTag_of_unique (dict : Dict) (t : Tag) :
    ∀ tags : List Tag, t ∈ tags →
      (∀ t2 ∈ tags, tagName dict t2 = tagName dict t → t2 = t) →
      lastMatchingTag dict tags (tagName dict t) = some t := by
  intro tags
  induction tags with
  | nil => intro h; cases h
  | cons a rest ih =>
    intro hmem huniq
    by_cases hr : t ∈ rest
    · have h2 := ih hr (fun t2 ht2 hn => huniq t2 (List.mem_cons_of_mem a ht2) hn)
      simp [lastMatchingTag, h2]
    · have hat : a = t := by
        rcases List.mem_cons.mp hmem with h | h
        · exact h.symm
        · exact absurd h hr
      subst hat
      have hnone : lastMatchingTag dict rest (tagName dict a) = none := by
        apply lastMatchingTag_none
        intro t2 ht2 hn
        have ht : t2 = a := huniq t2 (List.mem_cons_of_mem a ht2) hn
        subst ht
        exact absurd ht2 hr
      simp [lastMatchingTag, hnone]

/-- Claim C9: for a tag of the extraction list whose attribute is absent
from the file (and whose dictionary name no other tag of the list shares
— the configured list contains no duplicates), the output mapping still
contains a key for that attribute's name, bound to a `String` value
carrying the access error's "not found" text, rather than omitting the
key. -/
theorem c9_absent_attribute (dict : Dict) (obj : DicomObj) (tags : List Tag)
    (t : Tag) (msg : String)
    (hmem : t ∈ tags)
    (huniq : ∀ t2 ∈ tags, tagName dict t2 = tagName dict t → t2 = t)
    (habs : obj.element t = .error msg) :
    mapLookup (extract_dicom_tags dict obj tags) (tagName dict t)
      = some (Value.String msg) := by
  unfold extract_dicom_tags
  rw [extract_tags_lookup dict obj tags [] (tagName dict t),
    lastMatchingTag_of_unique dict t tags hmem huniq]
  simp [decodeTagValue, habs]

/-- Witness for C9: a single absent private tag still gets a key, bound
to the element access error's text. -/
theorem c9_witness :
    mapLookup (extract_dicom_tags dict0 obj0 [tU1]) (tagName dict0 tU1)
      = some (Value.String "no such data element") :=
  c9_absent_attribute dict0 obj0 [tU1] tU1 "no such data element"
    (by decide) (by decide) rfl

/-- Claim C10: the output mapping binds each name to the value of the
last tag of the extraction list that resolves to that name (later
insertions under the same dictionary name overwrite earlier ones — in
particular any two unregistered tags both resolve to "Unknown Tag"), so
the mapping can contain strictly fewer entries than the list has tags;
its size never exceeds the number of tags. -/
theorem c10_last_insertion_wins (dict : Dict) (obj : DicomObj)
    (tags : List Tag) (k : String) :
    mapLookup (extract_dicom_tags dict obj tags) k
      = (lastMatchingTag dict tags k).map (decodeTagValue obj)
    ∧ (extract_dicom_tags dict obj tags).length ≤ tags.length := by
  constructor
  · unfold extract_dicom_tags
    rw [extract_tags_lookup dict obj tags [] k]
    cases h : lastMatchingTag dict tags k <;> simp [mapLookup]
  · have h := extract_fold_length dict obj tags []
    simpa [extract_dicom_tags] using h

/-- Witness for C10: two unregistered tags both resolve to
"Unknown Tag"; the value decoded for the second (a CS element reading
`CT`) overwrites the first's access-error value, and the mapping has one
entry for the two tags. -/
theorem c10_witness :
    mapLookup (extract_dicom_tags dict0 obj10 [tU1, tU2]) "Unknown Tag"
        = some (Value.String "CT")
      ∧ (extract_dicom_tags dict0 obj10 [tU1, tU2]).length = 1 := by
  constructor
  · rw [(c10_last_insertion_wins dict0 obj10 [tU1, tU2] "Unknown Tag").1]
    decide
  · decide
